import Mathlib

/-!
# Verification of the dynamic form application (`src/main.py`)

A shallow embedding of the form-schema data model, the in-memory stores,
the form renderer (`create_dynamic_form`) and the per-field analytics
aggregation (`show_analytics`), together with theorems settling the
specification claims.

Modelling conventions:
* Python dictionaries become association lists whose assignment
  (`d[k] = v`) updates an existing key in place and otherwise appends,
  matching insertion-order semantics of Python dicts.
* Python `float()` is modelled on the nonnegative integer literals the
  claims use, failing (`ValueError`) on anything else.
* Python runtime errors (`TypeError` from iterating `None`, `KeyError`,
  `ZeroDivisionError`, `ValueError`) are made explicit via `Except`.
* Presentation-only attributes (inline `style=` strings, CSS) are dropped
  from the markup tree; every attribute a claim refers to is kept.
-/

namespace DynamicQuestion

/-- The seven field types of `TypeEnum` in `src/main.py`. -/
inductive TypeEnum where
  | text
  | number
  | date
  | radio
  | checkbox
  | select
  | textarea
deriving DecidableEq, Repr

/-- `class Options(BaseModel)`: one selectable option. -/
structure Options where
  label : String
  value : String
deriving DecidableEq, Repr

/-- `class FormField(BaseModel)`: a single form field.  `placeholder` and
`options` are `Optional` in the Pydantic model, hence `Option` here; the
shape itself does not tie their presence to the field type. -/
structure FormField where
  label : String
  type : TypeEnum
  name : String
  required : Bool
  placeholder : Option String
  options : Option (List Options)
deriving DecidableEq, Repr

/-- `class DynamicForm(BaseModel)`: a titled list of fields. -/
structure DynamicForm where
  title : String
  fields : List FormField
deriving DecidableEq, Repr

/-- `class FormResponse(BaseModel)`: one submission.  `data` is a Python
`Dict[str, str]`, modelled as an association list; `timestamp` as a `Nat`. -/
structure FormResponse where
  response_id : String
  form_id : String
  data : List (String × String)
  timestamp : Nat
deriving DecidableEq, Repr

/-! ## Python dictionary operations on association lists -/

/-- Python `k in d`. -/
def hasKey {α : Type} (d : List (String × α)) (k : String) : Bool :=
  d.any (fun p => p.1 = k)

/-- Python `d[k] = v`: overwrite in place when the key exists, else append
(insertion-order semantics of Python dicts). -/
def dictSet {α : Type} (d : List (String × α)) (k : String) (v : α) :
    List (String × α) :=
  if hasKey d k then d.map (fun p => if p.1 = k then (k, v) else p)
  else d ++ [(k, v)]

/-- Python `d.get(k, dflt)`. -/
def dictGet (d : List (String × String)) (k : String) (dflt : String) : String :=
  (d.lookup k).getD dflt

/-- Lexicographic comparison of character lists by code point. -/
def charsLt : List Char → List Char → Bool
  | [], [] => false
  | [], _ :: _ => true
  | _ :: _, [] => false
  | a :: as, b :: bs =>
      if a.toNat < b.toNat then true
      else if b.toNat < a.toNat then false
      else charsLt as bs

/-- Python string comparison `a < b`: lexicographic by code point. -/
def pyStrLt (a b : String) : Bool := charsLt a.data b.data

/-! ## Python runtime errors made explicit -/

/-- Runtime errors the embedded code can raise: iterating `None`
(`TypeError`), `float()` on a non-numeric string (`ValueError`),
division by zero, and indexing a dict at a missing key (`KeyError`). -/
inductive PyErr where
  | typeErr
  | valueErr
  | zeroDivErr
  | keyErr
deriving DecidableEq, Repr

instance exceptDecEq {ε α : Type} [DecidableEq ε] [DecidableEq α] :
    DecidableEq (Except ε α) := fun a b =>
  match a, b with
  | .error e, .error f =>
      if h : e = f then .isTrue (congrArg Except.error h)
      else .isFalse (fun hh => h (Except.error.inj hh))
  | .ok x, .ok y =>
      if h : x = y then .isTrue (congrArg Except.ok h)
      else .isFalse (fun hh => h (Except.ok.inj hh))
  | .error _, .ok _ => .isFalse (fun hh => Except.noConfusion hh)
  | .ok _, .error _ => .isFalse (fun hh => Except.noConfusion hh)

/-! ## Markup tree produced by the renderer -/

/-- Markup nodes produced by `create_dynamic_form` and the FastHTML
constructors it uses.  Attribute order follows the source; presentation
`style=` strings are dropped. -/
inductive Node where
  | container (children : List Node)
  | h1 (txt : String)
  | divN (cls : Option String) (children : List Node)
  | labelN (txt : String) (htmlFor : Option String)
  | inputN (ty : String) (nm : String) (value : Option String)
      (idAttr : Option String) (required : Bool) (placeholder : Option String)
  | selectN (nm : String) (required : Bool) (children : List Node)
  | optionN (value : String) (lbl : String)
  | textareaN (nm : String) (placeholder : Option String) (required : Bool)
  | formN (method : String) (action : String) (children : List Node)
  | buttonN (txt : String) (ty : String)

/-- The HTML attribute string of a `TypeEnum` value (Python's `str` Enum). -/
def TypeEnum.str : TypeEnum → String
  | .text => "text"
  | .number => "number"
  | .date => "date"
  | .radio => "radio"
  | .checkbox => "checkbox"
  | .select => "select"
  | .textarea => "textarea"

/-- The body of the per-field `for` loop of `create_dynamic_form`
(src/main.py lines 97-167).  Iterating `None` options for an
option-bearing type raises `TypeError`. -/
def renderField (field : FormField) : Except PyErr Node :=
  match field.type with
  | .text | .number | .date =>
      .ok (.divN none
        [.labelN field.label (some field.name),
         .inputN field.type.str field.name none none field.required
           field.placeholder])
  | .select =>
      match field.options with
      | none => .error .typeErr
      | some opts =>
          .ok (.divN none
            [.labelN field.label (some field.label),
             .selectN field.name field.required
               (opts.map (fun opt => .optionN opt.value opt.label))])
  | .checkbox =>
      match field.options with
      | none => .error .typeErr
      | some opts =>
          .ok (.divN none
            [.labelN field.label none,
             .divN none (opts.map (fun opt =>
               Node.divN none
                 [.inputN "checkbox" field.name (some opt.value)
                     (some (field.name ++ "_" ++ opt.value)) false none,
                  .labelN opt.label
                     (some (field.name ++ "_" ++ opt.value))]))])
  | .radio =>
      match field.options with
      | none => .error .typeErr
      | some opts =>
          .ok (.divN none
            [.labelN field.label none,
             .divN none (opts.map (fun opt =>
               Node.divN none
                 [.inputN "radio" field.name (some opt.value)
                     (some (field.name ++ "_" ++ opt.value)) field.required none,
                  .labelN opt.label
                     (some (field.name ++ "_" ++ opt.label))]))])
  | .textarea =>
      .ok (.divN none
        [.labelN field.label (some field.name),
         .textareaN field.name field.placeholder field.required])

/-- `create_dynamic_form(form_data, form_id, is_preview)` for a non-`None`
`form_data` (src/main.py lines 91-179): render every field, then wrap in a
preview `Div` or a submitting `Form` with a trailing submit `Button`, and
a `Container` with the title. -/
def create_dynamic_form (form_data : DynamicForm) (form_id : String)
    (is_preview : Bool) : Except PyErr Node := do
  let fields ← form_data.fields.mapM renderField
  let form :=
    if is_preview then Node.divN (some "preview-form") fields
    else Node.formN "post" ("/submit/" ++ form_id)
      (fields ++ [Node.buttonN "Submit" "submit"])
  return .container [.h1 form_data.title, form]

/-! ## Analytics aggregation (`show_analytics`, src/main.py lines 273-314) -/

/-- Python `float(r)`, modelled on the nonnegative integer literals used by
the analytics examples: an all-digit string parses to its value, anything
else raises `ValueError`. -/
def pyFloat (s : String) : Except PyErr ℚ :=
  if s.data ≠ [] ∧ s.data.all Char.isDigit then
    .ok ((s.data.foldl (fun n c => n * 10 + (c.toNat - 48)) 0 : Nat) : ℚ)
  else .error .valueErr

/-- `sum(float(r) for r in xs)`: conversion failure propagates. -/
def floatSum (xs : List String) : Except PyErr ℚ :=
  xs.foldlM (fun acc r => do return acc + (← pyFloat r)) 0

/-- Python division `a / n` with an integer divisor: raises
`ZeroDivisionError` on `n = 0`. -/
def pyDiv (a : ℚ) (n : Nat) : Except PyErr ℚ :=
  if n = 0 then .error .zeroDivErr else .ok (a / n)

/-- The average expression of line 295:
`sum(float(r) for r in field_responses if r) / len(field_responses)
 if field_responses else 0`.
The generator filters out falsy (empty) strings; the divisor is the
length of the unfiltered list. -/
def numAvg (field_responses : List String) : Except PyErr ℚ :=
  if field_responses.isEmpty then .ok 0
  else do
    let s ← floatSum (field_responses.filter (fun r => r ≠ ""))
    pyDiv s field_responses.length

/-- Python `min(xs, default=d)` on strings: lexicographic by code point,
first occurrence kept on ties. -/
def pyMinD (d : String) (xs : List String) : String :=
  match xs with
  | [] => d
  | x :: rest => rest.foldl (fun a b => if pyStrLt b a then b else a) x

/-- Python `max(xs, default=d)` on strings: lexicographic by code point,
first occurrence kept on ties. -/
def pyMaxD (d : String) (xs : List String) : String :=
  match xs with
  | [] => d
  | x :: rest => rest.foldl (fun a b => if pyStrLt a b then b else a) x

/-- The dict comprehension of line 301:
`{option.value: field_responses.count(option.value) for option in field.options}`,
built left to right with Python dict assignment. -/
def option_counts (opts : List Options) (field_responses : List String) :
    List (String × Nat) :=
  opts.foldl
    (fun acc opt => dictSet acc opt.value (field_responses.count opt.value)) []

/-- The per-field summary appended to the analytics page. -/
inductive FieldReport where
  | textList (values : List String)
  | numberStats (avg : ℚ) (minV maxV : String)
  | optionDist (counts : List (String × Nat))
deriving DecidableEq, Repr

/-- One iteration of the `for field in form.fields` loop of
`show_analytics`: extract `response.data.get(field.name, "")` per response
and dispatch on the field type. -/
def fieldAnalytics (responses : List FormResponse) (field : FormField) :
    Except PyErr FieldReport :=
  let field_responses := responses.map (fun r => dictGet r.data field.name "")
  match field.type with
  | .text | .textarea => .ok (.textList field_responses)
  | .number | .date => do
      let avg ← numAvg field_responses
      return .numberStats avg (pyMinD "N/A" field_responses)
        (pyMaxD "N/A" field_responses)
  | .radio | .select | .checkbox =>
      match field.options with
      | none => .error .typeErr
      | some opts => .ok (.optionDist (option_counts opts field_responses))

/-- The analytics page content: form title, total response count, and the
per-field reports labelled by `field.label`, in `form.fields` order. -/
structure AnalyticsReport where
  title : String
  total : Nat
  fieldReports : List (String × FieldReport)
deriving DecidableEq, Repr

/-! ## Application state and the route handlers -/

/-- The two module-level dicts `generated_forms` and `form_responses`. -/
structure AppState where
  generated_forms : List (String × DynamicForm)
  form_responses : List (String × List FormResponse)

/-- The state at process start: both dicts empty. -/
def emptyState : AppState := ⟨[], []⟩

/-- Outcome of a route handler. -/
inductive Res (α : Type) where
  | notFound
  | genFailed
  | pyError (e : PyErr)
  | ok (a : α)

/-- `generate_form` (src/main.py lines 215-236) for a given parse result
`parsed` of the model call and generated id `form_id`: with a nonempty
prompt it stores the parsed form and an empty response list, then renders
the preview (which can raise after the stores have been mutated); with an
empty prompt it returns the error page without touching state. -/
def generate_form (prompt : String) (parsed : DynamicForm) (form_id : String)
    (s : AppState) : Res Node × AppState :=
  if prompt ≠ "" then
    let s' : AppState :=
      ⟨dictSet s.generated_forms form_id parsed,
       dictSet s.form_responses form_id []⟩
    match create_dynamic_form parsed form_id true with
    | .error e => (.pyError e, s')
    | .ok preview => (.ok preview, s')
  else (.genFailed, s)

/-- `share_form` (src/main.py lines 239-247): render the stored form in
editable mode, or the not-found page. -/
def share_form (form_id : String) (s : AppState) : Res Node × AppState :=
  match s.generated_forms.lookup form_id with
  | none => (.notFound, s)
  | some form_data =>
      match create_dynamic_form form_data form_id false with
      | .error e => (.pyError e, s)
      | .ok page => (.ok page, s)

/-- `submit_form` (src/main.py lines 250-270): membership is checked on
`generated_forms`, but the append indexes `form_responses[form_id]`
directly, which raises `KeyError` when that key is absent. -/
def submit_form (form_id : String) (data : List (String × String))
    (response_id : String) (ts : Nat) (s : AppState) :
    Res FormResponse × AppState :=
  match s.generated_forms.lookup form_id with
  | none => (.notFound, s)
  | some _ =>
      match s.form_responses.lookup form_id with
      | none => (.pyError .keyErr, s)
      | some lst =>
          let response : FormResponse := ⟨response_id, form_id, data, ts⟩
          (.ok response,
           ⟨s.generated_forms,
            dictSet s.form_responses form_id (lst ++ [response])⟩)

/-- `show_analytics` (src/main.py lines 273-314): look the form up, read
`form_responses.get(form_id, [])`, and aggregate every field in order. -/
def show_analytics (form_id : String) (s : AppState) :
    Res AnalyticsReport × AppState :=
  match s.generated_forms.lookup form_id with
  | none => (.notFound, s)
  | some form =>
      let responses := (s.form_responses.lookup form_id).getD []
      match form.fields.mapM
          (fun f => (fieldAnalytics responses f).map (fun rep => (f.label, rep))) with
      | .error e => (.pyError e, s)
      | .ok reps => (.ok ⟨form.title, responses.length, reps⟩, s)

/-! ## Observation functions on the rendered markup

The renderer produces a `container` of a heading and a wrapper (`formN` in
editable mode, `divN` in preview mode) whose children are the per-field
blocks.  The functions below read off, from such a tree, the selectable
controls with their labels and values, the submit buttons, the form
actions, and the id/for attribute pairs of grouped inputs. -/

/-- The selectable controls rendered for one field block: `optionN`
children of a `selectN`, or the input/label pairs of a checkbox or radio
group, as (label, value) pairs in document order. -/
def fieldCtls (n : Node) : List (String × String) :=
  match n with
  | .divN _ [_, .selectN _ _ opts] =>
      opts.filterMap (fun c =>
        match c with
        | .optionN v l => some (l, v)
        | _ => none)
  | .divN _ [.labelN _ _, .divN _ optDivs] =>
      optDivs.filterMap (fun c =>
        match c with
        | .divN _ (.inputN _ _ (some v) _ _ _ :: .labelN l _ :: _) =>
            some (l, v)
        | _ => none)
  | _ => []

/-- The (input id, label for) attribute pairs of a checkbox or radio
group block, in document order. -/
def fieldIdForPairs (n : Node) : List (Option String × Option String) :=
  match n with
  | .divN _ [.labelN _ _, .divN _ optDivs] =>
      optDivs.filterMap (fun c =>
        match c with
        | .divN _ (.inputN _ _ _ ia _ _ :: .labelN _ f :: _) => some (ia, f)
        | _ => none)
  | _ => []

/-- The children of the wrapper element of a rendered page. -/
def pageBody (page : Node) : List Node :=
  match page with
  | .container [_, .formN _ _ cs] => cs
  | .container [_, .divN _ cs] => cs
  | _ => []

/-- All selectable controls of a rendered page, in document order. -/
def pageCtls (page : Node) : List (String × String) :=
  ((pageBody page).map fieldCtls).flatten

/-- The text of a submit button node, if the node is one. -/
def btnExtract (c : Node) : Option String :=
  match c with
  | .buttonN t "submit" => some t
  | _ => none

/-- The texts of all submit buttons directly inside the page wrapper. -/
def pageSubmitBtns (page : Node) : List String :=
  (pageBody page).filterMap btnExtract

/-- The submission targets of the page: actions of `formN` wrappers. -/
def pageFormActions (page : Node) : List String :=
  match page with
  | .container [_, .formN _ act _] => [act]
  | _ => []

/-! ## Reachable states -/

/-- One public operation applied with arbitrary arguments. -/
inductive Step : AppState → AppState → Prop where
  | gen (prompt : String) (parsed : DynamicForm) (fid : String) (s : AppState) :
      Step s (generate_form prompt parsed fid s).2
  | submit (fid : String) (data : List (String × String)) (rid : String)
      (ts : Nat) (s : AppState) : Step s (submit_form fid data rid ts s).2
  | share (fid : String) (s : AppState) : Step s (share_form fid s).2
  | analytics (fid : String) (s : AppState) : Step s (show_analytics fid s).2

/-- States reachable from the empty initial state via the public
operations. -/
inductive Reachable : AppState → Prop where
  | init : Reachable emptyState
  | step {s s' : AppState} : Reachable s → Step s s' → Reachable s'

/-- One submission as passed to `submit_form`: the raw field map, the
generated response id, and the timestamp. -/
def Submission : Type := List (String × String) × String × Nat

/-- The response built from a submission to `form_id`. -/
def Submission.toResponse (sub : Submission) (form_id : String) : FormResponse :=
  ⟨sub.2.1, form_id, sub.1, sub.2.2⟩

/-- Run a sequence of submissions against one form, in order. -/
def submitAll (form_id : String) (subs : List Submission) (s : AppState) :
    AppState :=
  subs.foldl (fun st sub => (submit_form form_id sub.1 sub.2.1 sub.2.2 st).2) s

/-! ## Helper lemmas about the dictionary model -/

theorem lookup_eq_none_of_hasKey_false {α : Type} (d : List (String × α))
    (k : String) (h : hasKey d k = false) : d.lookup k = none := by
  induction d with
  | nil => rfl
  | cons p rest ih =>
      simp only [hasKey, List.any_cons, Bool.or_eq_false_iff] at h
      simp only [List.lookup]
      have hk : (k == p.1) = false := by
        simp only [beq_eq_false_iff_ne, ne_eq]
        intro hkk
        simp [hkk] at h
      rw [hk]
      exact ih (by simpa [hasKey] using h.2)

theorem hasKey_of_lookup_some {α : Type} (d : List (String × α)) (k : String)
    (v : α) (h : d.lookup k = some v) : hasKey d k = true := by
  by_contra hc
  rw [lookup_eq_none_of_hasKey_false d k (by simpa using hc)] at h
  exact Option.noConfusion h

theorem lookup_isSome_eq_hasKey {α : Type} (d : List (String × α))
    (k : String) : (d.lookup k).isSome = hasKey d k := by
  induction d with
  | nil => rfl
  | cons p rest ih =>
      simp only [List.lookup, hasKey, List.any_cons]
      by_cases hp : k = p.1
      · have hb : (k == p.1) = true := by simp [hp]
        rw [hb]
        simp [hp.symm]
      · have hb : (k == p.1) = false := by simp [hp]
        rw [hb]
        have hd : decide (p.1 = k) = false := by
          simp
          exact fun hc => hp hc.symm
        rw [hd]
        simpa [hasKey] using ih

theorem hasKey_map_dictSet {α : Type} (l : List (String × α)) (k : String)
    (v : α) (k' : String) :
    hasKey (l.map (fun p => if p.1 = k then (k, v) else p)) k'
      = hasKey l k' := by
  induction l with
  | nil => rfl
  | cons p rest ih =>
      unfold hasKey at ih ⊢
      rw [List.map_cons, List.any_cons, List.any_cons, ih]
      by_cases hp : p.1 = k
      · rw [if_pos hp]
        simp [hp]
      · rw [if_neg hp]

theorem hasKey_dictSet {α : Type} (d : List (String × α)) (k : String) (v : α)
    (k' : String) :
    hasKey (dictSet d k v) k' = (hasKey d k' || decide (k' = k)) := by
  unfold dictSet
  by_cases h : hasKey d k
  · rw [if_pos h, hasKey_map_dictSet]
    by_cases hk' : k' = k
    · subst hk'
      simp [h]
    · simp [hk']
  · rw [if_neg h]
    unfold hasKey
    rw [List.any_append]
    simp [eq_comm]

theorem lookup_dictSet_self {α : Type} (d : List (String × α)) (k : String)
    (v : α) : (dictSet d k v).lookup k = some v := by
  unfold dictSet
  by_cases h : hasKey d k
  · rw [if_pos h]
    induction d with
    | nil => simp [hasKey] at h
    | cons p rest ih =>
        by_cases hp : p.1 = k
        · rw [List.map_cons, if_pos hp]
          simp [List.lookup]
        · rw [List.map_cons, if_neg hp]
          have hk : (k == p.1) = false := by
            simp only [beq_eq_false_iff_ne, ne_eq]
            exact fun hkk => hp hkk.symm
          simp only [List.lookup, hk]
          exact ih (by simpa [hasKey, hp] using h)
  · rw [if_neg h]
    induction d with
    | nil => simp [List.lookup]
    | cons p rest ih =>
        have hp : p.1 ≠ k := by
          intro hpk
          simp [hasKey, hpk] at h
        have hk : (k == p.1) = false := by
          simp only [beq_eq_false_iff_ne, ne_eq]
          exact fun hkk => hp hkk.symm
        rw [List.cons_append]
        simp only [List.lookup, hk]
        exact ih (by simpa [hasKey, hp] using h)

/-! ## Helper lemmas about the route handlers -/

theorem share_form_snd (form_id : String) (s : AppState) :
    (share_form form_id s).2 = s := by
  unfold share_form
  cases s.generated_forms.lookup form_id with
  | none => rfl
  | some fd =>
      dsimp only
      split <;> rfl

theorem show_analytics_snd (form_id : String) (s : AppState) :
    (show_analytics form_id s).2 = s := by
  unfold show_analytics
  cases s.generated_forms.lookup form_id with
  | none => rfl
  | some form =>
      dsimp only
      split <;> rfl

theorem generate_form_snd (prompt : String) (parsed : DynamicForm)
    (form_id : String) (s : AppState) (h : prompt ≠ "") :
    (generate_form prompt parsed form_id s).2 =
      ⟨dictSet s.generated_forms form_id parsed,
       dictSet s.form_responses form_id []⟩ := by
  unfold generate_form
  rw [if_pos h]
  dsimp only
  split <;> rfl

/-! ## Claim theorems -/

/-- C3: for every `form_id` absent from the form collection, each of
`share_form`, `submit_form` and `show_analytics` returns the not-found
result and leaves the whole state (both the form collection and the
response store) unchanged: no response is appended and no key is
created. -/
theorem notFound_no_mutation (form_id : String) (s : AppState)
    (data : List (String × String)) (rid : String) (ts : Nat)
    (h : hasKey s.generated_forms form_id = false) :
    share_form form_id s = (.notFound, s) ∧
    submit_form form_id data rid ts s = (.notFound, s) ∧
    show_analytics form_id s = (.notFound, s) := by
  have hl : s.generated_forms.lookup form_id = none :=
    lookup_eq_none_of_hasKey_false _ _ h
  refine ⟨?_, ?_, ?_⟩
  · unfold share_form
    rw [hl]
  · unfold submit_form
    rw [hl]
  · unfold show_analytics
    rw [hl]

/-- Witness for C3 at the empty state and form id "missing". -/
theorem notFound_no_mutation_witness :
    share_form "missing" emptyState = (.notFound, emptyState) ∧
    submit_form "missing" [("a", "b")] "r1" 0 emptyState
      = (.notFound, emptyState) ∧
    show_analytics "missing" emptyState = (.notFound, emptyState) :=
  notFound_no_mutation "missing" emptyState [("a", "b")] "r1" 0 rfl

/-- The key-set invariant of the two stores, preserved by every public
operation. -/
theorem keys_invariant {s : AppState} (h : Reachable s) :
    ∀ fid, hasKey s.generated_forms fid = hasKey s.form_responses fid := by
  induction h with
  | init => intro fid; rfl
  | step hr hstep ih =>
      rename_i t t'
      cases hstep with
      | gen prompt parsed fid0 =>
          intro fid
          by_cases hp : prompt ≠ ""
          · rw [generate_form_snd _ _ _ _ hp]
            dsimp only
            rw [hasKey_dictSet, hasKey_dictSet, ih fid]
          · have hs : (generate_form prompt parsed fid0 t).2 = t := by
              unfold generate_form
              rw [if_neg hp]
            rw [hs]
            exact ih fid
      | submit fid0 data rid ts =>
          intro fid
          unfold submit_form
          cases hg : t.generated_forms.lookup fid0 with
          | none => exact ih fid
          | some fd =>
              cases hr2 : t.form_responses.lookup fid0 with
              | none => exact ih fid
              | some lst =>
                  dsimp only
                  rw [hasKey_dictSet, ← ih fid]
                  by_cases hf : fid = fid0
                  · subst hf
                    rw [hasKey_of_lookup_some _ _ _ hg]
                    simp
                  · simp [hf]
      | share fid0 =>
          intro fid
          rw [share_form_snd]
          exact ih fid
      | analytics fid0 =>
          intro fid
          rw [show_analytics_snd]
          exact ih fid

/-- C9: in every state reachable from the empty initial state via the
public operations, a `form_id` is a key of `generated_forms` exactly when
it is a key of `form_responses`; consequently `submit_form`'s append to
`form_responses[form_id]` never raises `KeyError` once the membership
check on `generated_forms` has passed. -/
theorem store_keys_iff (s : AppState) (h : Reachable s) :
    (∀ fid, hasKey s.generated_forms fid = hasKey s.form_responses fid) ∧
    (∀ fid data rid ts,
      (submit_form fid data rid ts s).1 ≠ Res.pyError PyErr.keyErr) := by
  refine ⟨keys_invariant h, ?_⟩
  intro fid data rid ts
  unfold submit_form
  cases hg : s.generated_forms.lookup fid with
  | none => simp
  | some fd =>
      have hk : hasKey s.form_responses fid = true := by
        rw [← keys_invariant h fid]
        exact hasKey_of_lookup_some _ _ _ hg
      cases hr2 : s.form_responses.lookup fid with
      | none =>
          rw [← lookup_isSome_eq_hasKey, hr2] at hk
          exact absurd hk (by simp)
      | some lst => simp

/-- A sample generated form with one text field. -/
def demoForm : DynamicForm :=
  ⟨"Demo", [⟨"Your name", .text, "name", true, some "enter name", none⟩]⟩

/-- The state after generating `demoForm` under id "f1". -/
def demoState : AppState := (generate_form "p" demoForm "f1" emptyState).2

theorem demoState_reachable : Reachable demoState :=
  Reachable.step Reachable.init (Step.gen "p" demoForm "f1" emptyState)

/-- Witness for C9 in the state reached by generating one form. -/
theorem store_keys_iff_witness :
    hasKey demoState.generated_forms "f1" = hasKey demoState.form_responses "f1" ∧
    (submit_form "f1" [("name", "Ada")] "r1" 0 demoState).1
      ≠ Res.pyError PyErr.keyErr :=
  ⟨(store_keys_iff demoState demoState_reachable).1 "f1",
   (store_keys_iff demoState demoState_reachable).2 "f1" [("name", "Ada")] "r1" 0⟩

/-- Submitting a sequence of responses to a stored form appends them, in
order, to that form's response list, and touches nothing else. -/
theorem submitAll_responses (fid : String) (subs : List Submission)
    (s : AppState) (fd : DynamicForm) (rs : List FormResponse)
    (hg : s.generated_forms.lookup fid = some fd)
    (hr : s.form_responses.lookup fid = some rs) :
    (submitAll fid subs s).generated_forms = s.generated_forms ∧
    (submitAll fid subs s).form_responses.lookup fid
      = some (rs ++ subs.map (fun sub => sub.toResponse fid)) := by
  induction subs generalizing s rs with
  | nil =>
      refine ⟨rfl, ?_⟩
      simpa [submitAll] using hr
  | cons sub rest ih =>
      have hstep : (submit_form fid sub.1 sub.2.1 sub.2.2 s).2 =
          ⟨s.generated_forms,
           dictSet s.form_responses fid (rs ++ [sub.toResponse fid])⟩ := by
        unfold submit_form
        rw [hg, hr]
        rfl
      have hrun : submitAll fid (sub :: rest) s
          = submitAll fid rest (submit_form fid sub.1 sub.2.1 sub.2.2 s).2 := by
        unfold submitAll
        rw [List.foldl_cons]
      rw [hrun, hstep]
      have hg' : (AppState.mk s.generated_forms
          (dictSet s.form_responses fid (rs ++ [sub.toResponse fid]))).generated_forms.lookup fid
          = some fd := hg
      have hr' : (AppState.mk s.generated_forms
          (dictSet s.form_responses fid (rs ++ [sub.toResponse fid]))).form_responses.lookup fid
          = some (rs ++ [sub.toResponse fid]) := by
        dsimp only
        exact lookup_dictSet_self _ _ _
      obtain ⟨h1, h2⟩ := ih _ _ hg' hr'
      refine ⟨h1, ?_⟩
      rw [h2]
      simp

/-- C6: round-trip.  After generating a form and submitting any sequence
of raw field maps, the response store holds exactly those submissions in
order, and for every `text`/`textarea` field the aggregation reports the
full ordered list of the submitted values for that field (missing keys
as the empty string, unfiltered), one entry per response. -/
theorem text_roundtrip (form : DynamicForm) (fid : String)
    (subs : List Submission) (field : FormField)
    (hf : field ∈ form.fields)
    (hty : field.type = TypeEnum.text ∨ field.type = TypeEnum.textarea) :
    ((submitAll fid subs
        (generate_form "p" form fid emptyState).2).form_responses.lookup fid).getD []
      = subs.map (fun sub => sub.toResponse fid) ∧
    fieldAnalytics (subs.map (fun sub => sub.toResponse fid)) field
      = .ok (.textList (subs.map (fun sub => dictGet sub.1 field.name ""))) := by
  have hsnd := generate_form_snd "p" form fid emptyState (by decide)
  have hg : ((generate_form "p" form fid emptyState).2).generated_forms.lookup fid
      = some form := by
    rw [hsnd]
    dsimp only
    exact lookup_dictSet_self _ _ _
  have hr : ((generate_form "p" form fid emptyState).2).form_responses.lookup fid
      = some [] := by
    rw [hsnd]
    dsimp only
    exact lookup_dictSet_self _ _ _
  obtain ⟨hgen, hlook⟩ := submitAll_responses fid subs _ form [] hg hr
  constructor
  · rw [hlook]
    simp
  · rcases hty with h | h <;>
    · simp only [fieldAnalytics, h]
      rw [List.map_map]
      rfl

/-- Witness for C6: two submissions (one empty-string answer, one
"Bob") to the demo text field come back verbatim and in order. -/
theorem text_roundtrip_witness :
    ((submitAll "f1" [([("name", "")], "r1", 5), ([("name", "Bob")], "r2", 6)]
        (generate_form "p" demoForm "f1" emptyState).2).form_responses.lookup "f1").getD []
      = [⟨"r1", "f1", [("name", "")], 5⟩, ⟨"r2", "f1", [("name", "Bob")], 6⟩] ∧
    fieldAnalytics
        [⟨"r1", "f1", [("name", "")], 5⟩, ⟨"r2", "f1", [("name", "Bob")], 6⟩]
        ⟨"Your name", .text, "name", true, some "enter name", none⟩
      = .ok (.textList ["", "Bob"]) :=
  text_roundtrip demoForm "f1"
    [([("name", "")], "r1", 5), ([("name", "Bob")], "r2", 6)]
    ⟨"Your name", .text, "name", true, some "enter name", none⟩
    (by simp [demoForm]) (Or.inl rfl)

/-- The running float sum can only fail with `ValueError`. -/
theorem foldlM_pyFloat_error (xs : List String) (acc : ℚ) (e : PyErr)
    (h : xs.foldlM (fun a r => do return a + (← pyFloat r)) acc = .error e) :
    e = PyErr.valueErr := by
  induction xs generalizing acc with
  | nil => simp [List.foldlM, pure, Except.pure] at h
  | cons x rest ih =>
      rw [List.foldlM_cons] at h
      cases hp : pyFloat x with
      | error e' =>
          have he' : e' = PyErr.valueErr := by
            unfold pyFloat at hp
            by_cases hc : (x.data ≠ [] ∧ x.data.all Char.isDigit)
            · rw [if_pos hc] at hp
              exact absurd hp (by simp)
            · rw [if_neg hc] at hp
              exact (Except.error.inj hp).symm
          rw [hp] at h
          simp [bind, Except.bind] at h
          rw [← h]
          exact he'
      | ok v =>
          rw [hp] at h
          simp only [bind, Except.bind, pure, Except.pure] at h
          exact ih (acc + v) (by simpa [bind, Except.bind, pure, Except.pure] using h)

theorem floatSum_error (xs : List String) (e : PyErr)
    (h : floatSum xs = .error e) : e = PyErr.valueErr :=
  foldlM_pyFloat_error xs 0 e h

/-- The guarded average never divides by zero. -/
theorem numAvg_ne_zeroDiv (rs : List String) :
    numAvg rs ≠ .error PyErr.zeroDivErr := by
  unfold numAvg
  by_cases he : rs.isEmpty
  · rw [if_pos he]
    simp
  · rw [if_neg he]
    cases hs : floatSum (rs.filter (fun r => r ≠ "")) with
    | error e =>
        have hv := floatSum_error _ _ hs
        subst hv
        simp [bind, Except.bind, hs]
    | ok q =>
        have hlen : rs.length ≠ 0 := by
          cases rs with
          | nil => simp at he
          | cons a l => simp
        simp [bind, Except.bind, hs, pyDiv, hlen]

/-- C7: a `number`/`date` field with zero responses reports average `0`
and min/max `"N/A"`, and neither the average computation nor the whole
per-field aggregation can raise a division-by-zero error on any response
sequence. -/
theorem empty_responses_stats :
    (∀ field : FormField,
      field.type = TypeEnum.number ∨ field.type = TypeEnum.date →
      fieldAnalytics [] field = .ok (.numberStats 0 "N/A" "N/A")) ∧
    (∀ rs : List String, numAvg rs ≠ .error PyErr.zeroDivErr) ∧
    (∀ (responses : List FormResponse) (field : FormField),
      fieldAnalytics responses field ≠ .error PyErr.zeroDivErr) := by
  refine ⟨?_, numAvg_ne_zeroDiv, ?_⟩
  · intro field h
    rcases h with h | h <;>
    · simp only [fieldAnalytics, h]
      rfl
  · intro responses field
    unfold fieldAnalytics
    cases hty : field.type <;> dsimp only
    case text | textarea => simp
    case number | date =>
        cases ha : numAvg (responses.map (fun r => dictGet r.data field.name "")) with
        | error e =>
            have : e ≠ PyErr.zeroDivErr := by
              intro hc
              subst hc
              exact numAvg_ne_zeroDiv _ ha
            simp [bind, Except.bind, ha, this]
        | ok q => simp [bind, Except.bind, ha, pure, Except.pure]
    case radio | select | checkbox =>
        cases field.options <;> simp

/-- Witness for C7 at a concrete number field. -/
theorem empty_responses_stats_witness :
    fieldAnalytics [] ⟨"Count", .number, "count", false, none, none⟩
      = .ok (.numberStats 0 "N/A" "N/A") ∧
    numAvg ["10"] ≠ .error PyErr.zeroDivErr ∧
    fieldAnalytics [] ⟨"Day", .date, "day", false, none, none⟩
      ≠ .error PyErr.zeroDivErr :=
  ⟨empty_responses_stats.1 ⟨"Count", .number, "count", false, none, none⟩
      (Or.inl rfl),
   empty_responses_stats.2.1 ["10"],
   empty_responses_stats.2.2 [] ⟨"Day", .date, "day", false, none, none⟩⟩

/-! ## Order facts about Python string comparison -/

theorem charsLt_cons (a b : Char) (as bs : List Char) :
    charsLt (a :: as) (b :: bs)
      = (if a.toNat < b.toNat then true
         else if b.toNat < a.toNat then false
         else charsLt as bs) := rfl

theorem charsLt_irrefl (l : List Char) : charsLt l l = false := by
  induction l with
  | nil => rfl
  | cons a as ih =>
      rw [charsLt_cons, if_neg (Nat.lt_irrefl a.toNat),
          if_neg (Nat.lt_irrefl a.toNat)]
      exact ih

theorem charsLt_trans (a b c : List Char) (h1 : charsLt a b = true)
    (h2 : charsLt b c = true) : charsLt a c = true := by
  induction a generalizing b c with
  | nil =>
      cases c with
      | nil =>
          exfalso
          cases b with
          | nil => simp [charsLt] at h2
          | cons bb bs => simp [charsLt] at h2
      | cons cc cs => rfl
  | cons aa as ih =>
      cases b with
      | nil => simp [charsLt] at h1
      | cons bb bs =>
          cases c with
          | nil => simp [charsLt] at h2
          | cons cc cs =>
              rw [charsLt_cons] at h1 h2 ⊢
              by_cases h_ab : aa.toNat < bb.toNat
              · by_cases h_bc : bb.toNat < cc.toNat
                · rw [if_pos (by omega : aa.toNat < cc.toNat)]
                · rw [if_neg h_bc] at h2
                  by_cases h_cb : cc.toNat < bb.toNat
                  · rw [if_pos h_cb] at h2
                    exact absurd h2 (by simp)
                  · rw [if_pos (by omega : aa.toNat < cc.toNat)]
              · rw [if_neg h_ab] at h1
                by_cases h_ba : bb.toNat < aa.toNat
                · rw [if_pos h_ba] at h1
                  exact absurd h1 (by simp)
                · rw [if_neg h_ba] at h1
                  by_cases h_bc : bb.toNat < cc.toNat
                  · rw [if_pos (by omega : aa.toNat < cc.toNat)]
                  · rw [if_neg h_bc] at h2
                    by_cases h_cb : cc.toNat < bb.toNat
                    · rw [if_pos h_cb] at h2
                      exact absurd h2 (by simp)
                    · rw [if_neg h_cb] at h2
                      rw [if_neg (by omega : ¬ aa.toNat < cc.toNat),
                          if_neg (by omega : ¬ cc.toNat < aa.toNat)]
                      exact ih bs cs h1 h2

theorem charsLt_false_trans (a b c : List Char) (h1 : charsLt a b = false)
    (h2 : charsLt b c = false) : charsLt a c = false := by
  induction a generalizing b c with
  | nil =>
      cases c with
      | nil => rfl
      | cons cc cs =>
          cases b with
          | nil => simpa [charsLt] using h2
          | cons bb bs => simp [charsLt] at h1
  | cons aa as ih =>
      cases c with
      | nil => rfl
      | cons cc cs =>
          cases b with
          | nil => simp [charsLt] at h2
          | cons bb bs =>
              rw [charsLt_cons] at h1 h2 ⊢
              by_cases h_ab : aa.toNat < bb.toNat
              · rw [if_pos h_ab] at h1
                exact absurd h1 (by simp)
              · rw [if_neg h_ab] at h1
                by_cases h_bc : bb.toNat < cc.toNat
                · rw [if_pos h_bc] at h2
                  exact absurd h2 (by simp)
                · rw [if_neg h_bc] at h2
                  by_cases h_ba : bb.toNat < aa.toNat
                  · rw [if_neg (by omega : ¬ aa.toNat < cc.toNat),
                        if_pos (by omega : cc.toNat < aa.toNat)]
                  · rw [if_neg h_ba] at h1
                    by_cases h_cb : cc.toNat < bb.toNat
                    · rw [if_neg (by omega : ¬ aa.toNat < cc.toNat),
                          if_pos (by omega : cc.toNat < aa.toNat)]
                    · rw [if_neg h_cb] at h2
                      rw [if_neg (by omega : ¬ aa.toNat < cc.toNat),
                          if_neg (by omega : ¬ cc.toNat < aa.toNat)]
                      exact ih bs cs h1 h2

theorem pyStrLt_irrefl (s : String) : pyStrLt s s = false :=
  charsLt_irrefl s.data

theorem pyStrLt_trans {x y z : String} (h1 : pyStrLt x y = true)
    (h2 : pyStrLt y z = true) : pyStrLt x z = true :=
  charsLt_trans _ _ _ h1 h2

theorem pyStrLt_false_trans {x y z : String} (h1 : pyStrLt x y = false)
    (h2 : pyStrLt y z = false) : pyStrLt x z = false :=
  charsLt_false_trans _ _ _ h1 h2

/-- Python `min` over a nonempty string list returns an element that no
element is strictly below. -/
theorem foldl_min_spec (rest : List String) : ∀ x : String,
    (rest.foldl (fun a b => if pyStrLt b a then b else a) x ∈ x :: rest) ∧
    (∀ y ∈ x :: rest,
      pyStrLt y (rest.foldl (fun a b => if pyStrLt b a then b else a) x)
        = false) := by
  induction rest with
  | nil =>
      intro x
      refine ⟨List.mem_singleton.mpr rfl, ?_⟩
      intro y hy
      rw [List.mem_singleton] at hy
      subst hy
      exact pyStrLt_irrefl y
  | cons b rest ih =>
      intro x
      rw [List.foldl_cons]
      by_cases hb : pyStrLt b x = true
      · rw [if_pos hb]
        obtain ⟨hmem, hbound⟩ := ih b
        refine ⟨?_, ?_⟩
        · rcases List.mem_cons.mp hmem with h | h
          · rw [h]
            exact List.mem_cons_of_mem _ (List.mem_cons_self _ _)
          · exact List.mem_cons_of_mem _ (List.mem_cons_of_mem _ h)
        · intro y hy
          rcases List.mem_cons.mp hy with rfl | hy'
          · cases hxm : pyStrLt y
                (rest.foldl (fun a b => if pyStrLt b a then b else a) b) with
            | false => rfl
            | true =>
                have hbm := hbound b (List.mem_cons_self b rest)
                have hcontra := pyStrLt_trans hb hxm
                rw [hbm] at hcontra
                exact absurd hcontra (by simp)
          · exact hbound y hy'
      · rw [if_neg hb]
        have hb' : pyStrLt b x = false := by
          cases hpb : pyStrLt b x with
          | false => rfl
          | true => exact absurd hpb hb
        obtain ⟨hmem, hbound⟩ := ih x
        refine ⟨?_, ?_⟩
        · rcases List.mem_cons.mp hmem with h | h
          · rw [h]
            exact List.mem_cons_self _ _
          · exact List.mem_cons_of_mem _ (List.mem_cons_of_mem _ h)
        · intro y hy
          rcases List.mem_cons.mp hy with rfl | hy'
          · exact hbound y (List.mem_cons_self _ _)
          · rcases List.mem_cons.mp hy' with rfl | hy''
            · exact pyStrLt_false_trans hb'
                (hbound x (List.mem_cons_self _ _))
            · exact hbound y (List.mem_cons_of_mem _ hy'')

/-- Python `max` over a nonempty string list returns an element that is
strictly below no element. -/
theorem foldl_max_spec (rest : List String) : ∀ x : String,
    (rest.foldl (fun a b => if pyStrLt a b then b else a) x ∈ x :: rest) ∧
    (∀ y ∈ x :: rest,
      pyStrLt (rest.foldl (fun a b => if pyStrLt a b then b else a) x) y
        = false) := by
  induction rest with
  | nil =>
      intro x
      refine ⟨List.mem_singleton.mpr rfl, ?_⟩
      intro y hy
      rw [List.mem_singleton] at hy
      subst hy
      exact pyStrLt_irrefl y
  | cons b rest ih =>
      intro x
      rw [List.foldl_cons]
      by_cases hb : pyStrLt x b = true
      · rw [if_pos hb]
        obtain ⟨hmem, hbound⟩ := ih b
        refine ⟨?_, ?_⟩
        · rcases List.mem_cons.mp hmem with h | h
          · rw [h]
            exact List.mem_cons_of_mem _ (List.mem_cons_self _ _)
          · exact List.mem_cons_of_mem _ (List.mem_cons_of_mem _ h)
        · intro y hy
          rcases List.mem_cons.mp hy with rfl | hy'
          · cases hxm : pyStrLt
                (rest.foldl (fun a b => if pyStrLt a b then b else a) b) y with
            | false => rfl
            | true =>
                have hbm := hbound b (List.mem_cons_self b rest)
                have hcontra := pyStrLt_trans hxm hb
                rw [hbm] at hcontra
                exact absurd hcontra (by simp)
          · exact hbound y hy'
      · rw [if_neg hb]
        have hb' : pyStrLt x b = false := by
          cases hpb : pyStrLt x b with
          | false => rfl
          | true => exact absurd hpb hb
        obtain ⟨hmem, hbound⟩ := ih x
        refine ⟨?_, ?_⟩
        · rcases List.mem_cons.mp hmem with h | h
          · rw [h]
            exact List.mem_cons_self _ _
          · exact List.mem_cons_of_mem _ (List.mem_cons_of_mem _ h)
        · intro y hy
          rcases List.mem_cons.mp hy with rfl | hy'
          · exact hbound y (List.mem_cons_self _ _)
          · rcases List.mem_cons.mp hy' with rfl | hy''
            · exact pyStrLt_false_trans
                (hbound x (List.mem_cons_self _ _)) hb'
            · exact hbound y (List.mem_cons_of_mem _ hy'')

theorem floatSum_ten_twenty : floatSum ["10", "20"] = .ok 30 := by
  simp [floatSum, List.foldlM, pyFloat, bind, Except.bind, pure, Except.pure]
  norm_num

/-- C1 counterexample: for a `number` field with extracted values
`["10", "", "20"]` the code reports average `10` (the filtered sum `30`
divided by the unfiltered count `3`), minimum `""` (the empty string is
not excluded from `min`), and maximum `"20"` — not the claimed
average `15` and minimum `"10"`. -/
theorem number_stats_counterexample :
    fieldAnalytics
        [⟨"r1", "f1", [("age", "10")], 0⟩, ⟨"r2", "f1", [("age", "")], 1⟩,
         ⟨"r3", "f1", [("age", "20")], 2⟩]
        ⟨"Age", .number, "age", false, none, none⟩
      = .ok (.numberStats 10 "" "20") ∧
    fieldAnalytics
        [⟨"r1", "f1", [("age", "10")], 0⟩, ⟨"r2", "f1", [("age", "")], 1⟩,
         ⟨"r3", "f1", [("age", "20")], 2⟩]
        ⟨"Age", .number, "age", false, none, none⟩
      ≠ .ok (.numberStats 15 "10" "20") := by
  have hfr : ([(⟨"r1", "f1", [("age", "10")], 0⟩ : FormResponse),
      ⟨"r2", "f1", [("age", "")], 1⟩, ⟨"r3", "f1", [("age", "20")], 2⟩].map
        (fun r => dictGet r.data "age" "")) = ["10", "", "20"] := by decide
  have hflt : (["10", "", "20"].filter (fun r => r ≠ "")) = ["10", "20"] := by
    decide
  have havg : numAvg ["10", "", "20"] = .ok 10 := by
    unfold numAvg
    rw [if_neg (by decide), hflt, floatSum_ten_twenty]
    simp [bind, Except.bind, pyDiv]
    norm_num
  have hmin : pyMinD "N/A" ["10", "", "20"] = "" := by decide
  have hmax : pyMaxD "N/A" ["10", "", "20"] = "20" := by decide
  have hrep : fieldAnalytics
      [⟨"r1", "f1", [("age", "10")], 0⟩, ⟨"r2", "f1", [("age", "")], 1⟩,
       ⟨"r3", "f1", [("age", "20")], 2⟩]
      ⟨"Age", .number, "age", false, none, none⟩
      = .ok (.numberStats 10 "" "20") := by
    unfold fieldAnalytics
    dsimp only
    rw [hfr, havg, hmin, hmax]
    rfl
  refine ⟨hrep, ?_⟩
  rw [hrep]
  intro hc
  have := Except.ok.inj hc
  have h10 : (10 : ℚ) = 15 := by
    injection this
  norm_num at h10

/-- C1 amended: the aggregation filters empty strings only out of the
numerator sum.  The reported average is the sum of the non-empty values
divided by the total (unfiltered) number of extracted values, and the
reported minimum and maximum are string min/max over all extracted
values, empty strings included.  For `["10", "", "20"]` this yields
average `10`, minimum `""`, maximum `"20"`. -/
theorem number_stats_amended (rs : List String) (q : ℚ)
    (hne : rs ≠ [])
    (hsum : floatSum (rs.filter (fun r => r ≠ "")) = .ok q) :
    numAvg rs = .ok (q / rs.length) ∧
    pyMinD "N/A" rs ∈ rs ∧
    (∀ y ∈ rs, pyStrLt y (pyMinD "N/A" rs) = false) ∧
    pyMaxD "N/A" rs ∈ rs ∧
    (∀ y ∈ rs, pyStrLt (pyMaxD "N/A" rs) y = false) := by
  obtain ⟨x, rest, rfl⟩ : ∃ x rest, rs = x :: rest := by
    cases rs with
    | nil => exact absurd rfl hne
    | cons a l => exact ⟨a, l, rfl⟩
  refine ⟨?_, ?_⟩
  · unfold numAvg
    rw [if_neg (by simp), hsum]
    simp [bind, Except.bind, pyDiv]
  · have hmin := foldl_min_spec rest x
    have hmax := foldl_max_spec rest x
    exact ⟨hmin.1, hmin.2, hmax.1, hmax.2⟩

/-- Witness for the amended C1 at the input of the counterexample. -/
theorem number_stats_amended_witness :
    numAvg ["10", "", "20"]
      = .ok (30 / ((["10", "", "20"] : List String).length : ℚ)) ∧
    pyMinD "N/A" ["10", "", "20"] ∈ (["10", "", "20"] : List String) ∧
    (∀ y ∈ (["10", "", "20"] : List String),
      pyStrLt y (pyMinD "N/A" ["10", "", "20"]) = false) ∧
    pyMaxD "N/A" ["10", "", "20"] ∈ (["10", "", "20"] : List String) ∧
    (∀ y ∈ (["10", "", "20"] : List String),
      pyStrLt (pyMaxD "N/A" ["10", "", "20"]) y = false) :=
  number_stats_amended ["10", "", "20"] 30 (by decide)
    (by
      have hflt : (["10", "", "20"].filter (fun r => r ≠ "")) = ["10", "20"] := by
        decide
      rw [hflt]
      exact floatSum_ten_twenty)

/-- A Schema Generator output that violates the options applicability
invariant: a `select` field with `options` absent.  It still matches the
Pydantic shape (`options` is `Optional`), so parsing accepts it. -/
def badForm : DynamicForm :=
  ⟨"Bad", [⟨"Choice", .select, "choice", false, none, none⟩]⟩

/-- C2 counterexample: `generate_form` stores `badForm` — a form with an
option-bearing field and `options` absent — under its id and creates its
response list; the request then fails with a `TypeError` raised while
rendering the preview, after the stores have already been mutated.  No
`GenerationError` rejection happens and a form is stored. -/
theorem invariant_not_enforced_counterexample :
    (generate_form "p" badForm "fid1" emptyState).2.generated_forms.lookup "fid1"
      = some badForm ∧
    (generate_form "p" badForm "fid1" emptyState).2.form_responses.lookup "fid1"
      = some [] ∧
    (generate_form "p" badForm "fid1" emptyState).1 = Res.pyError PyErr.typeErr := by
  refine ⟨?_, ?_, ?_⟩ <;> rfl

/-- C2 amended: form creation performs no validation beyond the Pydantic
shape.  For every nonempty prompt, whatever `DynamicForm` the Schema
Generator parse produced — including one whose option-bearing field has
`options` absent or whose non-option field has `options` present — is
stored in `generated_forms` (with an empty response list) before any
failure can occur, and the request is never rejected as a generation
failure. -/
theorem invariant_not_enforced_amended (prompt : String) (parsed : DynamicForm)
    (fid : String) (s : AppState) (h : prompt ≠ "") :
    (generate_form prompt parsed fid s).2.generated_forms.lookup fid
      = some parsed ∧
    (generate_form prompt parsed fid s).2.form_responses.lookup fid
      = some [] ∧
    (generate_form prompt parsed fid s).1 ≠ Res.genFailed := by
  have hsnd := generate_form_snd prompt parsed fid s h
  refine ⟨?_, ?_, ?_⟩
  · rw [hsnd]
    dsimp only
    exact lookup_dictSet_self _ _ _
  · rw [hsnd]
    dsimp only
    exact lookup_dictSet_self _ _ _
  · unfold generate_form
    rw [if_pos h]
    dsimp only
    split
    · intro hc
      exact Res.noConfusion hc
    · intro hc
      exact Res.noConfusion hc

/-- Witness for the amended C2: the invariant-violating `badForm` is
stored under "fid1". -/
theorem invariant_not_enforced_amended_witness :
    (generate_form "p" badForm "fid1" emptyState).2.generated_forms.lookup "fid1"
      = some badForm ∧
    (generate_form "p" badForm "fid1" emptyState).2.form_responses.lookup "fid1"
      = some [] ∧
    (generate_form "p" badForm "fid1" emptyState).1 ≠ Res.genFailed :=
  invariant_not_enforced_amended "p" badForm "fid1" emptyState (by decide)

theorem filterMap_const_some {α β : Type} (f : α → β) (l : List α) :
    l.filterMap (fun a => some (f a)) = l.map f := by
  induction l with
  | nil => rfl
  | cons a as ih => simp [List.filterMap_cons, ih]

/-- When every field renders, the whole page is the heading plus the
wrapper around the rendered field blocks. -/
theorem create_dynamic_form_ok (fd : DynamicForm) (fid : String) (p : Bool)
    (ns : List Node) (h : fd.fields.mapM renderField = .ok ns) :
    create_dynamic_form fd fid p
      = .ok (.container [.h1 fd.title,
          if p then Node.divN (some "preview-form") ns
          else Node.formN "post" ("/submit/" ++ fid)
            (ns ++ [Node.buttonN "Submit" "submit"])]) := by
  unfold create_dynamic_form
  rw [h]
  rfl

/-- The selectable controls of a whole rendered page are the per-field
controls concatenated in `form.fields` order, in both modes. -/
theorem pageCtls_flatten (fd : DynamicForm) (fid : String) (p : Bool)
    (ns : List Node) (h : fd.fields.mapM renderField = .ok ns) :
    Except.map pageCtls (create_dynamic_form fd fid p)
      = .ok ((ns.map fieldCtls).flatten) := by
  rw [create_dynamic_form_ok fd fid p ns h]
  cases p with
  | true => rfl
  | false =>
      show Except.ok (((ns ++ [Node.buttonN "Submit" "submit"]).map
          fieldCtls).flatten)
        = Except.ok ((ns.map fieldCtls).flatten)
      rw [List.map_append, List.flatten_append]
      simp [fieldCtls]

/-- C4: for every field of type `radio`, `checkbox` or `select`,
rendering produces exactly one selectable control per declared option, in
declared order, labeled with `option.label` and valued with
`option.value`; and the selectable controls of the whole page are the
per-field controls concatenated in `form.fields` order. -/
theorem option_rendering :
    (∀ (field : FormField) (opts : List Options),
      (field.type = TypeEnum.radio ∨ field.type = TypeEnum.checkbox ∨
        field.type = TypeEnum.select) →
      field.options = some opts →
      Except.map fieldCtls (renderField field)
        = .ok (opts.map (fun o => (o.label, o.value)))) ∧
    (∀ (fd : DynamicForm) (fid : String) (p : Bool) (ns : List Node),
      fd.fields.mapM renderField = .ok ns →
      Except.map pageCtls (create_dynamic_form fd fid p)
        = .ok ((ns.map fieldCtls).flatten)) := by
  constructor
  · intro field opts hty hop
    rcases hty with h | h | h <;>
      (unfold renderField
       rw [h, hop]
       dsimp only [Except.map, fieldCtls]
       rw [List.filterMap_map]
       exact congrArg Except.ok
         (filterMap_const_some (fun o : Options => (o.label, o.value)) opts))
  · intro fd fid p ns h
    exact pageCtls_flatten fd fid p ns h

/-- Witness for C4: a select field with two options renders two option
controls in order. -/
theorem option_rendering_witness :
    Except.map fieldCtls
        (renderField ⟨"Pick", .select, "pick", false, none,
          some [⟨"Alpha", "A"⟩, ⟨"Beta", "B"⟩]⟩)
      = .ok [("Alpha", "A"), ("Beta", "B")] ∧
    Except.map pageCtls
        (create_dynamic_form
          ⟨"T", [⟨"Pick", .select, "pick", false, none,
            some [⟨"Alpha", "A"⟩, ⟨"Beta", "B"⟩]⟩]⟩ "f9" false)
      = .ok [("Alpha", "A"), ("Beta", "B")] := by
  constructor
  · exact option_rendering.1
      ⟨"Pick", .select, "pick", false, none,
        some [⟨"Alpha", "A"⟩, ⟨"Beta", "B"⟩]⟩
      [⟨"Alpha", "A"⟩, ⟨"Beta", "B"⟩] (Or.inr (Or.inr rfl)) rfl
  · exact option_rendering.2
      ⟨"T", [⟨"Pick", .select, "pick", false, none,
        some [⟨"Alpha", "A"⟩, ⟨"Beta", "B"⟩]⟩]⟩ "f9" false _ rfl

/-- Every rendered field block is a plain `Div`. -/
theorem renderField_shape (field : FormField) (n : Node)
    (h : renderField field = .ok n) : ∃ cs, n = Node.divN none cs := by
  unfold renderField at h
  cases hty : field.type <;> rw [hty] at h
  case text | number | date | textarea =>
      exact ⟨_, (Except.ok.inj h).symm⟩
  case select | checkbox | radio =>
      cases hop : field.options with
      | none => rw [hop] at h; exact absurd h (by simp)
      | some opts => rw [hop] at h; exact ⟨_, (Except.ok.inj h).symm⟩

/-- Every block produced by rendering the field list is a plain `Div`. -/
theorem mapM_renderField_shape (l : List FormField) (ns : List Node)
    (h : l.mapM renderField = .ok ns) :
    ∀ n ∈ ns, ∃ cs, n = Node.divN none cs := by
  induction l generalizing ns with
  | nil =>
      have : ns = [] := by
        simpa [List.mapM, List.mapM.loop, pure, Except.pure] using h.symm
      subst this
      intro n hn
      exact absurd hn (by simp)
  | cons f rest ih =>
      rw [List.mapM_cons] at h
      cases hf : renderField f with
      | error e => rw [hf] at h; exact absurd h (by simp [bind, Except.bind])
      | ok n0 =>
          rw [hf] at h
          cases hr : rest.mapM renderField with
          | error e =>
              rw [hr] at h
              exact absurd h (by simp [bind, Except.bind])
          | ok ns0 =>
              rw [hr] at h
              simp only [bind, Except.bind, pure, Except.pure] at h
              have hns : ns = n0 :: ns0 := (Except.ok.inj h).symm
              subst hns
              intro n hn
              rcases List.mem_cons.mp hn with rfl | hn'
              · exact renderField_shape f n hf
              · exact ih ns0 hr n hn'

/-- Field blocks contribute no submit button. -/
theorem filterMap_btnExtract_nil (ns : List Node)
    (hs : ∀ n ∈ ns, ∃ cs, n = Node.divN none cs) :
    ns.filterMap btnExtract = [] := by
  induction ns with
  | nil => rfl
  | cons n rest ih =>
      obtain ⟨cs, rfl⟩ := hs _ (List.mem_cons_self n rest)
      rw [List.filterMap_cons]
      have hb : btnExtract (Node.divN none cs) = none := rfl
      rw [hb]
      exact ih (fun m hm => hs m (List.mem_cons_of_mem _ hm))

/-- C8: in editable mode the field tree is wrapped in a `form` posting to
`/submit/{form_id}` with a single trailing submit button; in preview mode
it is a read-only `div` with no form wrapper and no submit button; and
the selectable controls of the two renderings coincide. -/
theorem render_modes (fd : DynamicForm) (fid : String) (ns : List Node)
    (h : fd.fields.mapM renderField = .ok ns) :
    create_dynamic_form fd fid false
      = .ok (.container [.h1 fd.title,
          .formN "post" ("/submit/" ++ fid)
            (ns ++ [.buttonN "Submit" "submit"])]) ∧
    create_dynamic_form fd fid true
      = .ok (.container [.h1 fd.title, .divN (some "preview-form") ns]) ∧
    Except.map pageCtls (create_dynamic_form fd fid false)
      = Except.map pageCtls (create_dynamic_form fd fid true) ∧
    Except.map pageSubmitBtns (create_dynamic_form fd fid false)
      = .ok ["Submit"] ∧
    Except.map pageSubmitBtns (create_dynamic_form fd fid true) = .ok [] ∧
    Except.map pageFormActions (create_dynamic_form fd fid false)
      = .ok ["/submit/" ++ fid] ∧
    Except.map pageFormActions (create_dynamic_form fd fid true) = .ok [] := by
  have hfm : ns.filterMap btnExtract = [] :=
    filterMap_btnExtract_nil ns (mapM_renderField_shape fd.fields ns h)
  have hed := create_dynamic_form_ok fd fid false ns h
  have hpv := create_dynamic_form_ok fd fid true ns h
  refine ⟨?_, ?_, ?_, ?_, ?_, ?_, ?_⟩
  · rw [hed]
    rfl
  · rw [hpv]
    rfl
  · rw [pageCtls_flatten fd fid false ns h, pageCtls_flatten fd fid true ns h]
  · rw [hed]
    show Except.ok ((ns ++ [Node.buttonN "Submit" "submit"]).filterMap btnExtract)
      = Except.ok ["Submit"]
    rw [List.filterMap_append, hfm]
    rfl
  · rw [hpv]
    show Except.ok (ns.filterMap btnExtract) = Except.ok []
    rw [hfm]
  · rw [hed]
    rfl
  · rw [hpv]
    rfl

/-- Witness for C8 on the demo form with one text field. -/
theorem render_modes_witness :
    create_dynamic_form demoForm "f1" false
      = .ok (.container [.h1 "Demo",
          .formN "post" "/submit/f1"
            ([Node.divN none [.labelN "Your name" (some "name"),
               .inputN "text" "name" none none true (some "enter name")]]
             ++ [.buttonN "Submit" "submit"])]) ∧
    create_dynamic_form demoForm "f1" true
      = .ok (.container [.h1 "Demo",
          .divN (some "preview-form")
            [Node.divN none [.labelN "Your name" (some "name"),
              .inputN "text" "name" none none true (some "enter name")]]]) ∧
    Except.map pageCtls (create_dynamic_form demoForm "f1" false)
      = Except.map pageCtls (create_dynamic_form demoForm "f1" true) ∧
    Except.map pageSubmitBtns (create_dynamic_form demoForm "f1" false)
      = .ok ["Submit"] ∧
    Except.map pageSubmitBtns (create_dynamic_form demoForm "f1" true)
      = .ok [] ∧
    Except.map pageFormActions (create_dynamic_form demoForm "f1" false)
      = .ok ["/submit/f1"] ∧
    Except.map pageFormActions (create_dynamic_form demoForm "f1" true)
      = .ok [] :=
  render_modes demoForm "f1"
    [Node.divN none [.labelN "Your name" (some "name"),
      .inputN "text" "name" none none true (some "enter name")]] rfl

theorem string_append_left_cancel (p a b : String) :
    (p ++ a = p ++ b) ↔ a = b := by
  constructor
  · intro h
    have hd : (p ++ a).data = (p ++ b).data := congrArg String.data h
    rw [String.data_append, String.data_append] at hd
    exact String.ext (List.append_cancel_left hd)
  · intro h
    rw [h]

/-- C10: every rendered radio input carries id `{name}_{option.value}`
while its label's `for` attribute is `{name}_{option.label}`, so the two
agree exactly when the option's label equals its value; checkbox groups
use `{name}_{option.value}` for both. -/
theorem radio_id_for_attributes :
    (∀ (field : FormField) (opts : List Options),
      field.type = TypeEnum.radio → field.options = some opts →
      (Except.map fieldIdForPairs (renderField field)
        = .ok (opts.map (fun o =>
            (some (field.name ++ "_" ++ o.value),
             some (field.name ++ "_" ++ o.label)))) ∧
      ∀ o ∈ opts,
        ((field.name ++ "_" ++ o.label) = (field.name ++ "_" ++ o.value)
          ↔ o.label = o.value))) ∧
    (∀ (field : FormField) (opts : List Options),
      field.type = TypeEnum.checkbox → field.options = some opts →
      Except.map fieldIdForPairs (renderField field)
        = .ok (opts.map (fun o =>
            (some (field.name ++ "_" ++ o.value),
             some (field.name ++ "_" ++ o.value))))) := by
  constructor
  · intro field opts h hop
    constructor
    · unfold renderField
      rw [h, hop]
      dsimp only [Except.map, fieldIdForPairs]
      rw [List.filterMap_map]
      exact congrArg Except.ok
        (filterMap_const_some
          (fun o : Options =>
            (some (field.name ++ "_" ++ o.value),
             some (field.name ++ "_" ++ o.label))) opts)
    · intro o _
      exact string_append_left_cancel (field.name ++ "_") o.label o.value
  · intro field opts h hop
    unfold renderField
    rw [h, hop]
    dsimp only [Except.map, fieldIdForPairs]
    rw [List.filterMap_map]
    exact congrArg Except.ok
      (filterMap_const_some
        (fun o : Options =>
          (some (field.name ++ "_" ++ o.value),
           some (field.name ++ "_" ++ o.value))) opts)

/-- A radio field whose first option has label = value and whose second
has label ≠ value. -/
def radioFld : FormField :=
  ⟨"Colour", .radio, "color", true, none, some [⟨"A", "A"⟩, ⟨"Big", "B"⟩]⟩

/-- A checkbox field with the same options. -/
def checkFld : FormField :=
  ⟨"Colour", .checkbox, "color", true, none, some [⟨"A", "A"⟩, ⟨"Big", "B"⟩]⟩

/-- Witness for C10: ids and for-attributes of the rendered groups. -/
theorem radio_id_for_attributes_witness :
    Except.map fieldIdForPairs (renderField radioFld)
      = .ok [(some ("color" ++ "_" ++ "A"), some ("color" ++ "_" ++ "A")),
             (some ("color" ++ "_" ++ "B"), some ("color" ++ "_" ++ "Big"))] ∧
    (∀ o ∈ [(⟨"A", "A"⟩ : Options), ⟨"Big", "B"⟩],
      ((("color" : String) ++ "_" ++ o.label) = ("color" ++ "_" ++ o.value)
        ↔ o.label = o.value)) ∧
    Except.map fieldIdForPairs (renderField checkFld)
      = .ok [(some ("color" ++ "_" ++ "A"), some ("color" ++ "_" ++ "A")),
             (some ("color" ++ "_" ++ "B"), some ("color" ++ "_" ++ "B"))] :=
  ⟨(radio_id_for_attributes.1 radioFld [⟨"A", "A"⟩, ⟨"Big", "B"⟩] rfl rfl).1,
   (radio_id_for_attributes.1 radioFld [⟨"A", "A"⟩, ⟨"Big", "B"⟩] rfl rfl).2,
   radio_id_for_attributes.2 checkFld [⟨"A", "A"⟩, ⟨"Big", "B"⟩] rfl rfl⟩

/-- Building the per-option count dictionary over fresh, duplicate-free
keys appends one entry per option, in declared order. -/
theorem foldl_dictSet_counts (vals : List String) (opts : List Options) :
    ∀ acc : List (String × Nat),
    (∀ o ∈ opts, hasKey acc o.value = false) →
    (opts.map Options.value).Nodup →
    opts.foldl (fun a opt => dictSet a opt.value (vals.count opt.value)) acc
      = acc ++ opts.map (fun o => (o.value, vals.count o.value)) := by
  induction opts with
  | nil =>
      intro acc _ _
      simp
  | cons o rest ih =>
      intro acc hfresh hnd
      rw [List.foldl_cons]
      have hko : hasKey acc o.value = false :=
        hfresh o (List.mem_cons_self o rest)
      have hset : dictSet acc o.value (vals.count o.value)
          = acc ++ [(o.value, vals.count o.value)] := by
        unfold dictSet
        rw [if_neg (by simp [hko])]
      rw [List.map_cons] at hnd
      obtain ⟨hno, hnd'⟩ := List.nodup_cons.mp hnd
      have hfresh' : ∀ o' ∈ rest,
          hasKey (acc ++ [(o.value, vals.count o.value)]) o'.value = false := by
        intro o' ho'
        unfold hasKey
        rw [List.any_append]
        have h1 : hasKey acc o'.value = false :=
          hfresh o' (List.mem_cons_of_mem _ ho')
        have h2 : o'.value ≠ o.value := by
          intro hc
          exact hno (hc ▸ List.mem_map_of_mem Options.value ho')
        unfold hasKey at h1
        rw [h1]
        simp [h2.symm]
      rw [hset, ih _ hfresh' hnd']
      simp

/-- C5: for a `radio`, `select` or `checkbox` field with duplicate-free
option values, aggregation reports, for every declared option in declared
order, the number of extracted response values exactly equal to that
option's value; extracted values matching no declared option appear in no
count and cause no error. -/
theorem option_counting (field : FormField) (opts : List Options)
    (responses : List FormResponse)
    (hty : field.type = TypeEnum.radio ∨ field.type = TypeEnum.select ∨
      field.type = TypeEnum.checkbox)
    (hop : field.options = some opts)
    (hnd : (opts.map Options.value).Nodup) :
    fieldAnalytics responses field
      = .ok (.optionDist (opts.map (fun o =>
          (o.value,
           (responses.map (fun r => dictGet r.data field.name "")).count
             o.value)))) := by
  have hcounts := foldl_dictSet_counts
    (responses.map (fun r => dictGet r.data field.name "")) opts []
    (fun o _ => rfl) hnd
  rcases hty with h | h | h <;>
    (unfold fieldAnalytics
     rw [h, hop]
     dsimp only
     unfold option_counts
     rw [hcounts]
     simp)

/-- Witness for C5: options {A, B} with extracted values ["A", "A", "C"]
report A: 2, B: 0, and "C" is counted nowhere. -/
theorem option_counting_witness :
    fieldAnalytics
        [⟨"r1", "f1", [("pick", "A")], 0⟩, ⟨"r2", "f1", [("pick", "A")], 1⟩,
         ⟨"r3", "f1", [("pick", "C")], 2⟩]
        ⟨"Pick", .select, "pick", false, none,
          some [⟨"Alpha", "A"⟩, ⟨"Beta", "B"⟩]⟩
      = .ok (.optionDist [("A", 2), ("B", 0)]) := by
  have h := option_counting
    ⟨"Pick", .select, "pick", false, none,
      some [⟨"Alpha", "A"⟩, ⟨"Beta", "B"⟩]⟩
    [⟨"Alpha", "A"⟩, ⟨"Beta", "B"⟩]
    [⟨"r1", "f1", [("pick", "A")], 0⟩, ⟨"r2", "f1", [("pick", "A")], 1⟩,
     ⟨"r3", "f1", [("pick", "C")], 2⟩]
    (Or.inr (Or.inl rfl)) rfl (by decide)
  simpa using h

end DynamicQuestion
